import Mathlib

/-!
Verification development for the Code_Smell_Detector repository.

The repository's core is `ck_extractor.py` (a regex/scan-based metric
extractor producing one MetricRecord per `.java` compilation unit) and
`sonar_detector.py` (a rule engine `detect_smells` classifying a
MetricRecord into zero or more smell findings).  This file gives a
shallow embedding of both, translated from the Python source, and proves
or refutes the frozen specification claims about them.

Conventions of the embedding:
* Python `str` values are `String` / `List Char`; all metric counts are
  `Nat` (the extractor only ever produces non-negative integers).
* Python float comparisons `x > m * 0.5` and `x > m * 0.6` are embedded
  as exact rational comparisons over `ℚ`.  `0.5` is a dyadic float, so
  Python's evaluation is exactly the rational one; `0.6`'s binary float
  rounds `m * 0.6` to the nearest double, which compares identically to
  the exact rational `3/5 * m` against an integer for every count
  magnitude the extractor can produce (the rounding error is far below
  the distance `≥ 1/5` to the nearest integer, and exact multiples of
  `1/5` are themselves recovered exactly by rounding).
* Python's regex patterns in the source are hand-compiled to explicit
  character scanners.  Every pattern in the source only combines
  literals, character classes and greedy `*`/`+` whose neighbouring
  elements use disjoint character sets, so greedy maximal-munch scanning
  is exactly Python's backtracking semantics; the single exception, the
  field pattern's middle class `[\w<>\[\],\s]*`, is given an explicit
  longest-first backtracking loop.
* `\w` and `\s` are modelled over ASCII (`[A-Za-z0-9_]` and Python's six
  whitespace characters); the repository's inputs are ASCII Java text.
-/

namespace CodeSmell

/-- One detected smell, mirroring the dict literals appended by
`sonar_detector.detect_smells` (fields `rule`, `type`, `severity`,
`text`, `smell_label`). -/
structure SmellFinding where
  rule : String
  type : String
  severity : String
  text : String
  smell_label : String
  deriving Repr, DecidableEq

/-- One metrics record, mirroring the dict returned by
`ck_extractor.extract_metrics`.  All numeric metrics are the
non-negative integers the extractor produces.  The raw source text is
stored under the key `raw_code` in the Python dict. -/
structure MetricRecord where
  file_path : String
  class_name : String
  package : String
  LOC : Nat
  WMC : Nat
  METHODS : Nat
  FIELDS : Nat
  PRIVATE_METHODS : Nat
  CBO : Nat
  DIT : Nat
  LCOM : Nat
  TCC : Nat
  ATFD : Nat
  MAX_METHOD_LOC : Nat
  NOC : Nat
  raw_code : String
  deriving Repr, DecidableEq

/-- `sonar_detector.detect_smells`: evaluate the five rule predicates in
fixed order (GodClass, LongMethod, DataClass, DeadCode, FeatureEnvy) and
append one finding per satisfied predicate.  The float comparisons
`private_methods > methods * 0.5` and `atfd > wmc * 0.6` are embedded as
the equivalent exact integer comparisons `2*pm > methods` and
`5*atfd > 3*wmc` (see the file header; the equivalence with the spec's
rational phrasing is proved in `deadCode_rat_iff` / `featureEnvy_rat_iff`
below). -/
def detect_smells (m : MetricRecord) : List SmellFinding :=
  (if m.WMC > 15 ∧ m.LOC > 100 ∧ (m.FIELDS > 12 ∨ m.ATFD > 4) then
    [{ rule := "java:S2095", type := "CODE_SMELL", severity := "MAJOR",
       text := "GodClass: class \x27" ++ m.class_name ++ "\x27 has WMC=" ++
         toString m.WMC ++ ", LOC=" ++ toString m.LOC ++ ", FIELDS=" ++ toString m.FIELDS,
       smell_label := "GodClass" }]
   else []) ++
  (if m.MAX_METHOD_LOC > 40 then
    [{ rule := "java:S1067", type := "CODE_SMELL", severity := "MAJOR",
       text := "LongMethod: longest method in \x27" ++ m.class_name ++ "\x27 has " ++
         toString m.MAX_METHOD_LOC ++ " lines",
       smell_label := "LongMethod" }]
   else []) ++
  (if m.FIELDS ≥ 5 ∧ m.METHODS > 0 ∧ m.WMC ≤ m.FIELDS * 2 + 2 ∧ m.MAX_METHOD_LOC ≤ 3 then
    [{ rule := "java:S2093", type := "CODE_SMELL", severity := "MINOR",
       text := "DataClass: \x27" ++ m.class_name ++ "\x27 has " ++ toString m.FIELDS ++
         " fields but only trivial methods (WMC=" ++ toString m.WMC ++ ")",
       smell_label := "DataClass" }]
   else []) ++
  (if m.PRIVATE_METHODS ≥ 3 ∧ m.METHODS > 0 ∧
      2 * m.PRIVATE_METHODS > m.METHODS then
    [{ rule := "java:S1604", type := "CODE_SMELL", severity := "MINOR",
       text := "DeadCode: \x27" ++ m.class_name ++ "\x27 has " ++
         toString m.PRIVATE_METHODS ++ " private methods out of " ++
         toString m.METHODS ++ " total",
       smell_label := "DeadCode" }]
   else []) ++
  (if m.ATFD ≥ 4 ∧ m.TCC ≥ 1 ∧ m.WMC > 0 ∧ 5 * m.ATFD > 3 * m.WMC then
    [{ rule := "java:R1031", type := "CODE_SMELL", severity := "MAJOR",
       text := "FeatureEnvy: \x27" ++ m.class_name ++ "\x27 has ATFD=" ++
         toString m.ATFD ++ ", TCC=" ++ toString m.TCC ++ ", WMC=" ++ toString m.WMC,
       smell_label := "FeatureEnvy" }]
   else [])

/-- The ordered list of smell labels produced for a record. -/
def smellLabels (m : MetricRecord) : List String :=
  (detect_smells m).map SmellFinding.smell_label

/-- Abbreviation for the five rule predicates, as in the source. -/
def godClassCond (m : MetricRecord) : Prop :=
  m.WMC > 15 ∧ m.LOC > 100 ∧ (m.FIELDS > 12 ∨ m.ATFD > 4)

def longMethodCond (m : MetricRecord) : Prop :=
  m.MAX_METHOD_LOC > 40

def dataClassCond (m : MetricRecord) : Prop :=
  m.FIELDS ≥ 5 ∧ m.METHODS > 0 ∧ m.WMC ≤ m.FIELDS * 2 + 2 ∧ m.MAX_METHOD_LOC ≤ 3

def deadCodeCond (m : MetricRecord) : Prop :=
  m.PRIVATE_METHODS ≥ 3 ∧ m.METHODS > 0 ∧ 2 * m.PRIVATE_METHODS > m.METHODS

def featureEnvyCond (m : MetricRecord) : Prop :=
  m.ATFD ≥ 4 ∧ m.TCC ≥ 1 ∧ m.WMC > 0 ∧ 5 * m.ATFD > 3 * m.WMC

/-- The integer comparison embedded for `pm > methods * 0.5` agrees with
the exact rational comparison (and `0.5` is a dyadic float, so Python's
evaluation is the exact rational one). -/
lemma half_rat_iff (a b : Nat) : ((a : ℚ) > (b : ℚ) * 0.5) ↔ 2 * a > b := by
  rw [gt_iff_lt, show (0.5 : ℚ) = 1 / 2 by norm_num, mul_one_div,
    div_lt_iff₀ (by norm_num : (0 : ℚ) < 2)]
  constructor
  · intro h
    have h2 : (b : ℚ) < ((2 * a : Nat) : ℚ) := by push_cast; linarith
    exact_mod_cast h2
  · intro h
    have h2 : (b : ℚ) < ((2 * a : Nat) : ℚ) := by exact_mod_cast h
    push_cast at h2; linarith

/-- The integer comparison embedded for `atfd > wmc * 0.6` agrees with
the exact rational comparison (Python's binary-float evaluation of
`wmc * 0.6` compares identically to the exact rational for every count
the extractor can produce, see the file header). -/
lemma sixTenths_rat_iff (a b : Nat) :
    ((a : ℚ) > (b : ℚ) * 0.6) ↔ 5 * a > 3 * b := by
  rw [gt_iff_lt, show (0.6 : ℚ) = 3 / 5 by norm_num, mul_div_assoc',
    div_lt_iff₀ (by norm_num : (0 : ℚ) < 5)]
  constructor
  · intro h
    have h2 : ((3 * b : Nat) : ℚ) < ((5 * a : Nat) : ℚ) := by push_cast; linarith
    exact_mod_cast h2
  · intro h
    have h2 : ((3 * b : Nat) : ℚ) < ((5 * a : Nat) : ℚ) := by exact_mod_cast h
    push_cast at h2; linarith

lemma deadCode_rat_iff (m : MetricRecord) :
    deadCodeCond m ↔
      m.PRIVATE_METHODS ≥ 3 ∧ m.METHODS > 0 ∧
        (m.PRIVATE_METHODS : ℚ) > (m.METHODS : ℚ) * 0.5 := by
  unfold deadCodeCond
  rw [half_rat_iff]

lemma featureEnvy_rat_iff (m : MetricRecord) :
    featureEnvyCond m ↔
      m.ATFD ≥ 4 ∧ m.TCC ≥ 1 ∧ m.WMC > 0 ∧
        (m.ATFD : ℚ) > (m.WMC : ℚ) * 0.6 := by
  unfold featureEnvyCond
  rw [sixTenths_rat_iff]

instance (m : MetricRecord) : Decidable (godClassCond m) := by
  unfold godClassCond; infer_instance

instance (m : MetricRecord) : Decidable (longMethodCond m) := by
  unfold longMethodCond; infer_instance

instance (m : MetricRecord) : Decidable (dataClassCond m) := by
  unfold dataClassCond; infer_instance

instance (m : MetricRecord) : Decidable (deadCodeCond m) := by
  unfold deadCodeCond; infer_instance

instance (m : MetricRecord) : Decidable (featureEnvyCond m) := by
  unfold featureEnvyCond; infer_instance

lemma smellLabels_eq (m : MetricRecord) :
    smellLabels m =
      (if godClassCond m then ["GodClass"] else []) ++
      (if longMethodCond m then ["LongMethod"] else []) ++
      (if dataClassCond m then ["DataClass"] else []) ++
      (if deadCodeCond m then ["DeadCode"] else []) ++
      (if featureEnvyCond m then ["FeatureEnvy"] else []) := by
  unfold smellLabels detect_smells godClassCond longMethodCond dataClassCond
    deadCodeCond featureEnvyCond
  split <;> split <;> split <;> split <;> split <;> rfl

lemma mem_smellLabels_god (m : MetricRecord) :
    "GodClass" ∈ smellLabels m ↔ godClassCond m := by
  rw [smellLabels_eq]
  split <;> split <;> split <;> split <;> split <;> simp_all

lemma mem_smellLabels_long (m : MetricRecord) :
    "LongMethod" ∈ smellLabels m ↔ longMethodCond m := by
  rw [smellLabels_eq]
  split <;> split <;> split <;> split <;> split <;> simp_all

lemma mem_smellLabels_data (m : MetricRecord) :
    "DataClass" ∈ smellLabels m ↔ dataClassCond m := by
  rw [smellLabels_eq]
  split <;> split <;> split <;> split <;> split <;> simp_all

lemma mem_smellLabels_dead (m : MetricRecord) :
    "DeadCode" ∈ smellLabels m ↔ deadCodeCond m := by
  rw [smellLabels_eq]
  split <;> split <;> split <;> split <;> split <;> simp_all

lemma mem_smellLabels_envy (m : MetricRecord) :
    "FeatureEnvy" ∈ smellLabels m ↔ featureEnvyCond m := by
  rw [smellLabels_eq]
  split <;> split <;> split <;> split <;> split <;> simp_all

/-- A record with every metric zero (and `NOC = 1`, as the extractor
always sets); used as the base for concrete test records. -/
def zeroRec : MetricRecord :=
  { file_path := "", class_name := "", package := "", LOC := 0, WMC := 0,
    METHODS := 0, FIELDS := 0, PRIVATE_METHODS := 0, CBO := 0, DIT := 0,
    LCOM := 0, TCC := 0, ATFD := 0, MAX_METHOD_LOC := 0, NOC := 1,
    raw_code := "" }

/-- The GodClass boundary record `WMC=16, LOC=101, FIELDS=13, ATFD=0`. -/
def godBoundaryYes : MetricRecord :=
  { zeroRec with WMC := 16, LOC := 101, FIELDS := 13, ATFD := 0 }

/-- The same record with `WMC=15`. -/
def godBoundaryNo : MetricRecord :=
  { godBoundaryYes with WMC := 15 }

/-- C1: for every MetricRecord, `detect_smells` produces a GodClass
finding iff `WMC > 15 ∧ LOC > 100 ∧ (FIELDS > 12 ∨ ATFD > 4)`, a
LongMethod finding iff `MAX_METHOD_LOC > 40`, a DataClass finding iff
`FIELDS ≥ 5 ∧ METHODS > 0 ∧ WMC ≤ FIELDS*2+2 ∧ MAX_METHOD_LOC ≤ 3`, a
DeadCode finding iff `PRIVATE_METHODS ≥ 3 ∧ METHODS > 0 ∧
PRIVATE_METHODS > METHODS * 0.5`, and a FeatureEnvy finding iff
`ATFD ≥ 4 ∧ TCC ≥ 1 ∧ WMC > 0 ∧ ATFD > WMC * 0.6`, with all comparisons
exactly as written; in particular `WMC=16, LOC=101, FIELDS=13, ATFD=0`
fires GodClass while `WMC=15` (all else equal) does not. -/
theorem C1_rule_predicates :
    (∀ m : MetricRecord,
      ("GodClass" ∈ smellLabels m ↔
        m.WMC > 15 ∧ m.LOC > 100 ∧ (m.FIELDS > 12 ∨ m.ATFD > 4)) ∧
      ("LongMethod" ∈ smellLabels m ↔ m.MAX_METHOD_LOC > 40) ∧
      ("DataClass" ∈ smellLabels m ↔
        m.FIELDS ≥ 5 ∧ m.METHODS > 0 ∧ m.WMC ≤ m.FIELDS * 2 + 2 ∧
          m.MAX_METHOD_LOC ≤ 3) ∧
      ("DeadCode" ∈ smellLabels m ↔
        m.PRIVATE_METHODS ≥ 3 ∧ m.METHODS > 0 ∧
          (m.PRIVATE_METHODS : ℚ) > (m.METHODS : ℚ) * 0.5) ∧
      ("FeatureEnvy" ∈ smellLabels m ↔
        m.ATFD ≥ 4 ∧ m.TCC ≥ 1 ∧ m.WMC > 0 ∧
          (m.ATFD : ℚ) > (m.WMC : ℚ) * 0.6)) ∧
    "GodClass" ∈ smellLabels godBoundaryYes ∧
    "GodClass" ∉ smellLabels godBoundaryNo := by
  refine ⟨fun m => ⟨mem_smellLabels_god m, mem_smellLabels_long m,
    mem_smellLabels_data m,
    (mem_smellLabels_dead m).trans (deadCode_rat_iff m),
    (mem_smellLabels_envy m).trans (featureEnvy_rat_iff m)⟩,
    by decide, by decide⟩

/-- The record of the spec's multi-label scenario:
`WMC=20, LOC=200, FIELDS=15, ATFD=6, TCC=2` (other metrics chosen
concretely non-negative). -/
def c2Rec : MetricRecord :=
  { zeroRec with
    WMC := 20
    LOC := 200
    FIELDS := 15
    ATFD := 6
    TCC := 2
    METHODS := 20
    MAX_METHOD_LOC := 10 }

/-- C2 counterexample: on the spec's multi-label record
(`WMC=20, LOC=200, FIELDS=15, ATFD=6, TCC=2`) the code fires GodClass
but does NOT fire FeatureEnvy, because `ATFD > WMC * 0.6` is `6 > 12`,
which is false. -/
theorem C2_counterexample :
    "GodClass" ∈ smellLabels c2Rec ∧ "FeatureEnvy" ∉ smellLabels c2Rec := by
  decide

/-- C2 (amended): for a MetricRecord with `WMC=20, LOC=200, FIELDS=15,
ATFD=13, TCC=2` (ATFD raised from 6 to 13 so that `ATFD > WMC * 0.6`,
i.e. `13 > 12`, holds), `detect_smells` produces findings for both
GodClass and FeatureEnvy, with the GodClass finding before the
FeatureEnvy finding in the returned list. -/
theorem C2_amended_multilabel (m : MetricRecord)
    (h1 : m.WMC = 20) (h2 : m.LOC = 200) (h3 : m.FIELDS = 15)
    (h4 : m.ATFD = 13) (h5 : m.TCC = 2) :
    ∃ mid, smellLabels m = "GodClass" :: (mid ++ ["FeatureEnvy"]) := by
  have hg : godClassCond m := by
    unfold godClassCond; rw [h1, h2, h3]
    exact ⟨by omega, by omega, Or.inl (by omega)⟩
  have hf : featureEnvyCond m := by
    unfold featureEnvyCond; rw [h1, h4, h5]
    refine ⟨by omega, by omega, by omega, by omega⟩
  rw [smellLabels_eq, if_pos hg, if_pos hf]
  exact ⟨(if longMethodCond m then ["LongMethod"] else []) ++
    (if dataClassCond m then ["DataClass"] else []) ++
    (if deadCodeCond m then ["DeadCode"] else []), by simp⟩

/-- The amended multi-label record. -/
def c2AmendedRec : MetricRecord :=
  { zeroRec with WMC := 20, LOC := 200, FIELDS := 15, ATFD := 13, TCC := 2 }

/-- Witness for the amended C2 theorem at a concrete record. -/
theorem C2_amended_multilabel_witness :
    ∃ mid, smellLabels c2AmendedRec = "GodClass" :: (mid ++ ["FeatureEnvy"]) :=
  C2_amended_multilabel c2AmendedRec rfl rfl rfl rfl rfl

/-- C5 counterexample: no MetricRecord can trigger both LongMethod and
DataClass (LongMethod needs `MAX_METHOD_LOC > 40`, DataClass needs
`MAX_METHOD_LOC ≤ 3`), so in particular no record triggers all five
rules simultaneously and the claimed pairwise compatibility fails for
the pair (LongMethod, DataClass). -/
theorem C5_counterexample :
    ¬ ∃ m : MetricRecord,
      "LongMethod" ∈ smellLabels m ∧ "DataClass" ∈ smellLabels m := by
  rintro ⟨m, hl, hd⟩
  rw [mem_smellLabels_long] at hl
  rw [mem_smellLabels_data] at hd
  have hl' : m.MAX_METHOD_LOC > 40 := hl
  have h3 : m.MAX_METHOD_LOC ≤ 3 := hd.2.2.2
  omega

/-- Record firing GodClass, LongMethod, DeadCode and FeatureEnvy at once. -/
def fourSmellRec : MetricRecord :=
  { zeroRec with
    WMC := 16
    LOC := 101
    FIELDS := 13
    MAX_METHOD_LOC := 41
    METHODS := 4
    PRIVATE_METHODS := 3
    ATFD := 10
    TCC := 1 }

/-- Joint records for the satisfiable rule pairs. -/
def recGL : MetricRecord :=
  { zeroRec with WMC := 16, LOC := 101, FIELDS := 13, MAX_METHOD_LOC := 41 }

def recGDc : MetricRecord :=
  { zeroRec with WMC := 16, LOC := 101, FIELDS := 13, METHODS := 1 }

def recGDe : MetricRecord :=
  { zeroRec with
    WMC := 16
    LOC := 101
    FIELDS := 13
    METHODS := 4
    PRIVATE_METHODS := 3 }

def recGF : MetricRecord :=
  { zeroRec with WMC := 16, LOC := 101, FIELDS := 13, ATFD := 10, TCC := 1 }

def recLDe : MetricRecord :=
  { zeroRec with MAX_METHOD_LOC := 41, METHODS := 4, PRIVATE_METHODS := 3 }

def recLF : MetricRecord :=
  { zeroRec with MAX_METHOD_LOC := 41, WMC := 1, ATFD := 4, TCC := 1 }

def recDcDe : MetricRecord :=
  { zeroRec with FIELDS := 5, METHODS := 4, WMC := 4, PRIVATE_METHODS := 3 }

def recDcF : MetricRecord :=
  { zeroRec with FIELDS := 5, METHODS := 1, WMC := 1, ATFD := 4, TCC := 1 }

def recDeF : MetricRecord :=
  { zeroRec with
    METHODS := 4
    PRIVATE_METHODS := 3
    WMC := 4
    ATFD := 4
    TCC := 1 }

/-- C5 (amended): every pair of distinct rules EXCEPT
(LongMethod, DataClass) is jointly satisfiable by some MetricRecord;
LongMethod and DataClass are mutually exclusive (so no record triggers
all five); and some record triggers four findings simultaneously. -/
theorem C5_amended_pairwise :
    (∃ m, "GodClass" ∈ smellLabels m ∧ "LongMethod" ∈ smellLabels m) ∧
    (∃ m, "GodClass" ∈ smellLabels m ∧ "DataClass" ∈ smellLabels m) ∧
    (∃ m, "GodClass" ∈ smellLabels m ∧ "DeadCode" ∈ smellLabels m) ∧
    (∃ m, "GodClass" ∈ smellLabels m ∧ "FeatureEnvy" ∈ smellLabels m) ∧
    (∃ m, "LongMethod" ∈ smellLabels m ∧ "DeadCode" ∈ smellLabels m) ∧
    (∃ m, "LongMethod" ∈ smellLabels m ∧ "FeatureEnvy" ∈ smellLabels m) ∧
    (∃ m, "DataClass" ∈ smellLabels m ∧ "DeadCode" ∈ smellLabels m) ∧
    (∃ m, "DataClass" ∈ smellLabels m ∧ "FeatureEnvy" ∈ smellLabels m) ∧
    (∃ m, "DeadCode" ∈ smellLabels m ∧ "FeatureEnvy" ∈ smellLabels m) ∧
    smellLabels fourSmellRec =
      ["GodClass", "LongMethod", "DeadCode", "FeatureEnvy"] ∧
    (∀ m : MetricRecord,
      ¬ ("LongMethod" ∈ smellLabels m ∧ "DataClass" ∈ smellLabels m)) := by
  refine ⟨⟨recGL, by decide⟩, ⟨recGDc, by decide⟩, ⟨recGDe, by decide⟩,
    ⟨recGF, by decide⟩, ⟨recLDe, by decide⟩, ⟨recLF, by decide⟩,
    ⟨recDcDe, by decide⟩, ⟨recDcF, by decide⟩, ⟨recDeF, by decide⟩,
    by decide, ?_⟩
  rintro m ⟨hl, hd⟩
  rw [mem_smellLabels_long] at hl
  rw [mem_smellLabels_data] at hd
  have hl' : m.MAX_METHOD_LOC > 40 := hl
  have h3 : m.MAX_METHOD_LOC ≤ 3 := hd.2.2.2
  omega

/-- C9: `detect_smells` is noninterfering with the metrics it does not
read — any two records that agree on LOC, WMC, FIELDS, METHODS,
PRIVATE_METHODS, ATFD, TCC, MAX_METHOD_LOC and class_name yield
identical ordered finding lists, even if they differ in CBO, DIT, LCOM,
package, file_path or the raw source text. -/
theorem C9_noninterference (m1 m2 : MetricRecord)
    (hLOC : m1.LOC = m2.LOC) (hWMC : m1.WMC = m2.WMC)
    (hF : m1.FIELDS = m2.FIELDS) (hM : m1.METHODS = m2.METHODS)
    (hPM : m1.PRIVATE_METHODS = m2.PRIVATE_METHODS)
    (hA : m1.ATFD = m2.ATFD) (hT : m1.TCC = m2.TCC)
    (hMM : m1.MAX_METHOD_LOC = m2.MAX_METHOD_LOC)
    (hC : m1.class_name = m2.class_name) :
    detect_smells m1 = detect_smells m2 := by
  unfold detect_smells
  rw [hLOC, hWMC, hF, hM, hPM, hA, hT, hMM, hC]

/-- A record that differs from `godBoundaryYes` only in the metrics the
rule engine never reads. -/
def c9OtherRec : MetricRecord :=
  { godBoundaryYes with
    CBO := 7
    DIT := 1
    LCOM := 5
    package := "a.b"
    file_path := "other/path.java"
    raw_code := "class X" }

/-- Witness for C9 at two concrete records that differ in CBO, DIT,
LCOM, package, file_path and raw source. -/
theorem C9_noninterference_witness :
    detect_smells c9OtherRec = detect_smells godBoundaryYes :=
  C9_noninterference c9OtherRec godBoundaryYes rfl rfl rfl rfl rfl rfl rfl
    rfl rfl

/-! ## The metric extractor (`ck_extractor.extract_metrics`)

Scanning primitives.  Python regexes from the source are hand-compiled
to these primitives; see the file header for why greedy maximal-munch
scanning coincides with Python's backtracking semantics on them. -/

/-- Python's `\w` over ASCII: `[A-Za-z0-9_]`. -/
def isWordChar (c : Char) : Bool :=
  c.isAlpha || c.isDigit || c = '_'

/-- Python's `\s`: the six whitespace characters of `str` regexes
(restricted to ASCII). -/
def isSpaceChar (c : Char) : Bool :=
  c = ' ' || c = '\t' || c = '\n' || c = '\r' || c = '\x0b' || c = '\x0c'

/-- Index just after the maximal run of `p`-characters starting at `i`
(greedy `p*`). -/
def munchEnd (p : Char → Bool) (l : List Char) (i : Nat) : Nat :=
  i + ((l.drop i).takeWhile p).length

/-- Match a literal at `i`; return the index just after it. -/
def litEnd (lit : List Char) (l : List Char) (i : Nat) : Option Nat :=
  if lit.isPrefixOf (l.drop i) then some (i + lit.length) else none

/-- Greedy `p+`: like `munchEnd` but requiring at least one character. -/
def plusEnd (p : Char → Bool) (l : List Char) (i : Nat) : Option Nat :=
  let j := munchEnd p l i
  if i < j then some j else none

/-- The slice `l[a:b]` (Python semantics, `b` exclusive). -/
def slice (l : List Char) (a b : Nat) : List Char :=
  (l.drop a).take (b - a)

/-- `re.search` driver: try a matcher at every position `i ≤ n`,
returning the first (leftmost) result.  The scan is written with a
structural fuel argument (any fuel `≥ n + 1 - i` behaves like the
unbounded loop, since the position advances by one per step). -/
def searchAux (m : Nat → Option α) (n : Nat) : Nat → Nat → Option α
  | 0, _ => none
  | fuel + 1, i =>
    if i ≤ n then
      match m i with
      | some a => some a
      | none => searchAux m n fuel (i + 1)
    else none

/-- `re.search` over a whole text of length `n`. -/
def search (m : Nat → Option α) (n : Nat) : Option α :=
  searchAux m n (n + 1) 0

/-- `re.findall` / `re.finditer` driver: scan positions left to right
while `i < n`, collecting non-overlapping matches; a matcher returns
the match end and the collected value.  As in CPython, the scan resumes
at the match end (advancing by at least one character), so fuel
`≥ n - i` behaves like the unbounded loop. -/
def findallAux (m : Nat → Option (Nat × α)) (n : Nat) : Nat → Nat → List α
  | 0, _ => []
  | fuel + 1, i =>
    if i < n then
      match m i with
      | some (j, a) => a :: findallAux m n fuel (max j (i + 1))
      | none => findallAux m n fuel (i + 1)
    else []

/-- `re.findall` over a whole text of length `n`. -/
def findall (m : Nat → Option (Nat × α)) (n : Nat) : List α :=
  findallAux m n n 0

/-- Does a `MULTILINE` `^` match at position `i`? -/
def lineStart (l : List Char) (i : Nat) : Bool :=
  match i with
  | 0 => true
  | k + 1 => l.getD k ' ' = '\n'

/-- Python's `str.split("\n")`: split at every newline, keeping empty
pieces. -/
def splitLines (l : List Char) : List (List Char) :=
  l.foldr (fun c acc =>
    match acc with
    | [] => [[c]]
    | cur :: rest => if c = '\n' then [] :: (cur :: rest) else (c :: cur) :: rest)
    [[]]

/-- Python's `str.strip()` (over the model's whitespace set). -/
def pstrip (l : List Char) : List Char :=
  ((l.dropWhile isSpaceChar).reverse.dropWhile isSpaceChar).reverse

/-- Is `needle` a substring of `hay` (Python's `needle in hay`)? -/
def substr (needle hay : List Char) : Bool :=
  match hay with
  | [] => needle.isEmpty
  | _ :: t => needle.isPrefixOf hay || substr needle t

/-- The brace scan of `extract_metrics` (lines 73-82 of the source):
walk the characters of `t` (the text from the scan start, carrying the
absolute index `i`), incrementing the depth on `{` and decrementing on
`}`; return the absolute index of the `}` at which the depth returns to
zero, or `none` if the loop exhausts the input without breaking. -/
def scanBody : List Char → Int → Nat → Option Nat
  | [], _, _ => none
  | c :: rest, depth, i =>
    if c = '\x7b' then scanBody rest (depth + 1) (i + 1)
    else if c = '\x7d' then
      if depth - 1 = 0 then some i else scanBody rest (depth - 1) (i + 1)
    else scanBody rest depth (i + 1)

/-- Python's `end` variable after the scan: the break index, or the
start position if the loop never broke (`end = start` initially). -/
def scanEnd (l : List Char) (start : Nat) : Nat :=
  (scanBody (l.drop start) 0 start).getD start

/-- `body = raw[start:end+1]`. -/
def bodyOf (l : List Char) (start : Nat) : List Char :=
  slice l start (scanEnd l start + 1)

/-- `\b` before a word character: holds iff the previous character is
not a word character (or we are at the start of the text). -/
def wordBoundary (l : List Char) (i : Nat) : Bool :=
  i == 0 || !isWordChar (l.getD (i - 1) ' ')

/-- `public\s+class\s+(\w+)` at one position, returning the captured
class name. -/
def matchPublicClassAt (l : List Char) (i : Nat) : Option (List Char) := do
  let a ← litEnd "public".data l i
  let b ← plusEnd isSpaceChar l a
  let c ← litEnd "class".data l b
  let d ← plusEnd isSpaceChar l c
  let e ← plusEnd isWordChar l d
  pure (slice l d e)

/-- `os.path.basename` (POSIX): the part after the last `/`. -/
def basename (p : List Char) : List Char :=
  (p.reverse.takeWhile (fun c => c != '/')).reverse

/-- Python's `str.replace(needle, "")`: remove non-overlapping
occurrences of `needle` left to right.  Structural fuel (`hay.length`
suffices, as each step consumes at least one character). -/
def removeAll (needle : List Char) : Nat → List Char → List Char
  | _, [] => []
  | 0, hay => hay
  | fuel + 1, c :: rest =>
    if needle ≠ [] ∧ needle.isPrefixOf (c :: rest) then
      removeAll needle fuel ((c :: rest).drop needle.length)
    else c :: removeAll needle fuel rest

/-- `class_name`: first match of the class pattern, else the file's base
name with every `".java"` occurrence removed (`os.path.basename` +
`str.replace(".java", "")`). -/
def classNameOf (filepath : String) (l : List Char) : String :=
  match search (matchPublicClassAt l) l.length with
  | some name => ⟨name⟩
  | none =>
    ⟨removeAll ".java".data (basename filepath.data).length
      (basename filepath.data)⟩

/-- `package\s+([\w.]+)` at one position. -/
def matchPackageAt (l : List Char) (i : Nat) : Option (List Char) := do
  let a ← litEnd "package".data l i
  let b ← plusEnd isSpaceChar l a
  let e ← plusEnd (fun ch => isWordChar ch || ch = '.') l b
  pure (slice l b e)

/-- `package`: first match of the package pattern, else `""`. -/
def packageOf (l : List Char) : String :=
  match search (matchPackageAt l) l.length with
  | some p => ⟨p⟩
  | none => ""

/-- The middle character class `[\w<>\[\],\s]` of the field pattern. -/
def isFieldMid (c : Char) : Bool :=
  isWordChar c || c = '<' || c = '>' || c = '[' || c = ']' || c = ',' ||
    isSpaceChar c

/-- The deterministic tail `\s+(\w+)\s*[=;]` of the field pattern,
returning the match end and the captured field name. -/
def matchFieldTail (l : List Char) (p : Nat) : Option (Nat × List Char) := do
  let a ← plusEnd isSpaceChar l p
  let b ← plusEnd isWordChar l a
  let q := munchEnd isSpaceChar l b
  let ch ← l[q]?
  if ch = '=' || ch = ';' then pure (q + 1, slice l a b) else failure

/-- Greedy backtracking for `[\w<>\[\],\s]*` followed by the tail: try
the longest class run (length `k`) first, then ever shorter ones, as
CPython's backtracking does. -/
def tryFieldMid (l : List Char) (q : Nat) : Nat → Option (Nat × List Char)
  | 0 => matchFieldTail l q
  | k + 1 =>
    (matchFieldTail l (q + k + 1)).orElse fun _ => tryFieldMid l q k

/-- `^\s+private\s+\w+[\w<>\[\],\s]*\s+(\w+)\s*[=;]` (MULTILINE) at one
position. -/
def matchFieldAt (l : List Char) (i : Nat) : Option (Nat × List Char) := do
  if lineStart l i then
    let a ← plusEnd isSpaceChar l i
    let b ← litEnd "private".data l a
    let c ← plusEnd isSpaceChar l b
    let d ← plusEnd isWordChar l c
    tryFieldMid l d (munchEnd isFieldMid l d - d)
  else failure

/-- `fields = field_pattern.findall(raw)`: the captured field names. -/
def fieldCaptures (l : List Char) : List (List Char) :=
  findall (matchFieldAt l) l.length

/-- The alternation `(public|private|protected)` (mutually exclusive
literals, tried in order). -/
def matchVis (l : List Char) (i : Nat) : Option (Nat × List Char) :=
  match litEnd "public".data l i with
  | some j => some (j, "public".data)
  | none =>
    match litEnd "private".data l i with
    | some j => some (j, "private".data)
    | none =>
      match litEnd "protected".data l i with
      | some j => some (j, "protected".data)
      | none => none

/-- The return-type character class `[\w<>\[\]]`. -/
def isTypeChar (c : Char) : Bool :=
  isWordChar c || c = '<' || c = '>' || c = '[' || c = ']'

/-- `^\s+(public|private|protected)\s+[\w<>\[\]]+\s+(\w+)\s*\(`
(MULTILINE) at one position, returning (match end, (visibility,
method name)). -/
def matchMethodAt (l : List Char) (i : Nat) :
    Option (Nat × (List Char × List Char)) := do
  if lineStart l i then
    let a ← plusEnd isSpaceChar l i
    let (b, vis) ← matchVis l a
    let c ← plusEnd isSpaceChar l b
    let d ← plusEnd isTypeChar l c
    let e ← plusEnd isSpaceChar l d
    let f ← plusEnd isWordChar l e
    let g := munchEnd isSpaceChar l f
    let h ← litEnd "(".data l g
    pure (h, (vis, slice l e f))
  else failure

/-- `method_matches = method_pattern.findall(raw)`. -/
def methodMatches (l : List Char) : List (List Char × List Char) :=
  findall (matchMethodAt l) l.length

/-- `(public|private|protected)\s+[\w<>\[\]]+\s+\w+\s*\([^)]*\)\s*\{`
(not line-anchored) at one position, returning the match end and the
index of the matched `{` (`match.end() - 1` in the source). -/
def matchMethodBodyAt (l : List Char) (i : Nat) : Option (Nat × Nat) :=
  (matchVis l i).bind fun av =>
  (plusEnd isSpaceChar l av.1).bind fun b =>
  (plusEnd isTypeChar l b).bind fun c =>
  (plusEnd isSpaceChar l c).bind fun d =>
  (plusEnd isWordChar l d).bind fun e =>
  let f := munchEnd isSpaceChar l e
  (litEnd "(".data l f).bind fun g =>
  let h := munchEnd (fun ch => ch != ')') l g
  (litEnd ")".data l h).bind fun p =>
  let q := munchEnd isSpaceChar l p
  (litEnd "\x7b".data l q).bind fun _ =>
  some (q + 1, q)

/-- The opening-brace positions of the method-body matches, in
`finditer` order. -/
def methodBraceStarts (l : List Char) : List Nat :=
  findall (matchMethodBodyAt l) l.length

/-- Per-body code-line count (source lines 84-86: non-blank lines not
starting with `//` or `*`; note: no `/*` filter here, unlike LOC). -/
def bodyLoc (body : List Char) : Nat :=
  (splitLines body).countP fun line =>
    let s := pstrip line
    !s.isEmpty && !("//".data.isPrefixOf s) && !("*".data.isPrefixOf s)

/-- `method_locs`: the per-method body line counts. -/
def methodLocs (l : List Char) : List Nat :=
  (methodBraceStarts l).map fun s => bodyLoc (bodyOf l s)

/-- `max(method_locs) if method_locs else 0`. -/
def maxMethodLoc (l : List Char) : Nat :=
  (methodLocs l).foldr max 0

/-- The LOC line filter (source lines 32-38: non-blank after stripping,
not starting with `//`, `*` or `/*`). -/
def isLocLine (line : List Char) : Bool :=
  let s := pstrip line
  !s.isEmpty && !("//".data.isPrefixOf s) && !("*".data.isPrefixOf s) &&
    !("/*".data.isPrefixOf s)

/-- `LOC`: count of code lines. -/
def locOf (l : List Char) : Nat :=
  (splitLines l).countP isLocLine

/-- The `builtin` exclusion set of the CBO computation. -/
def builtinTypes : List String :=
  ["int", "long", "double", "float", "boolean", "char", "byte", "short",
   "void", "String", "Object", "System", "Math", "Integer", "Long",
   "Double", "Float", "Boolean", "Comparable", "Iterable", "Exception",
   "RuntimeException"]

/-- `\b([A-Z]\w+)\b` at one position (the trailing `\b` is automatic
after a maximal `\w+` run). -/
def matchTypeAt (l : List Char) (i : Nat) : Option (Nat × List Char) := do
  if wordBoundary l i then
    let c0 ← l[i]?
    if 'A' ≤ c0 ∧ c0 ≤ 'Z' then
      let e ← plusEnd isWordChar l (i + 1)
      pure (e, slice l i e)
    else failure
  else failure

/-- `referenced_types = set(type_pattern.findall(raw)) - builtin -
\x7bclassname\x7d` (kept as a deduplicated list; only its size is
used). -/
def referencedTypes (l : List Char) (cname : String) : List String :=
  (((findall (matchTypeAt l) l.length).map
      fun t => (⟨t⟩ : String)).dedup).filter
    fun t => !(builtinTypes.contains t) && t != cname

/-- `extends\s+\w+` at one position. -/
def matchExtendsAt (l : List Char) (i : Nat) : Option Nat := do
  let a ← litEnd "extends".data l i
  let b ← plusEnd isSpaceChar l a
  plusEnd isWordChar l b

/-- `DIT = 1 if re.search(r"extends\s+\w+", raw) else 0`. -/
def ditOf (l : List Char) : Nat :=
  if (search (matchExtendsAt l) l.length).isSome then 1 else 0

/-- The method bodies, re-extracted exactly as in the LCOM loop (which
repeats the `finditer` + brace-scan of the MAX_METHOD_LOC loop). -/
def methodBodies (l : List Char) : List (List Char) :=
  (methodBraceStarts l).map (bodyOf l)

/-- `field_usage[f]` for a field NAME `f`: the LCOM loop adds 1 for
every (body, occurrence of `f` in the `fields` list) pair with `f` a
substring of the body, so a name captured `k` times accumulates `k`
per containing body. -/
def fieldUsage (fields bodies : List (List Char)) (f : List Char) : Nat :=
  fields.count f * bodies.countP fun b => substr f b

/-- `LCOM`: if more than one method and at least one field,
`max(0, num_methods - shared)` where `shared` counts (with
multiplicity) the field entries whose usage exceeds 1; else 0.
Truncated `Nat` subtraction is exactly `max(0, a - b)`. -/
def lcomOf (l : List Char) : Nat :=
  let fields := fieldCaptures l
  let bodies := methodBodies l
  let nm := (methodMatches l).length
  if nm > 1 ∧ fields.length > 0 then
    nm - fields.countP fun f => decide (1 < fieldUsage fields bodies f)
  else 0

/-- `(\w+)\.\w+\(` at one position, returning the captured receiver. -/
def matchCallAt (l : List Char) (i : Nat) : Option (Nat × List Char) := do
  let a ← plusEnd isWordChar l i
  let b ← litEnd ".".data l a
  let c ← plusEnd isWordChar l b
  let d ← litEnd "(".data l c
  pure (d, slice l i a)

/-- `TCC`: number of distinct call receivers not in
`("this", "System", "Math", "super", classname)`. -/
def tccOf (l : List Char) (cname : String) : Nat :=
  (((findall (matchCallAt l) l.length).filter fun r =>
      !(["this", "System", "Math", "super", cname].contains
        (⟨r⟩ : String))).dedup).length

/-- `(?!this)\b\w+\.(?:get|set)\w+\(` at one position. -/
def matchAtfdAt (l : List Char) (i : Nat) : Option (Nat × Unit) := do
  if !("this".data.isPrefixOf (l.drop i)) && wordBoundary l i then
    let a ← plusEnd isWordChar l i
    let b ← litEnd ".".data l a
    let c ← (litEnd "get".data l b).orElse fun _ => litEnd "set".data l b
    let d ← plusEnd isWordChar l c
    let e ← litEnd "(".data l d
    pure (e, ())
  else failure

/-- `ATFD = len(atfd_pattern.findall(raw))`. -/
def atfdOf (l : List Char) : Nat :=
  (findall (matchAtfdAt l) l.length).length

/-- `ck_extractor.extract_metrics`, modelled as a pure function of the
file path and the decoded file text (the Python function performs the
file read itself; per the spec's contract the read is the caller's
job, so the text is a parameter here). -/
def extract_metrics (filepath : String) (raw : String) : MetricRecord :=
  let l := raw.data
  let cname := classNameOf filepath l
  { file_path := filepath
    class_name := cname
    package := packageOf l
    LOC := locOf l
    WMC := (methodMatches l).length
    METHODS := (methodMatches l).length
    FIELDS := (fieldCaptures l).length
    PRIVATE_METHODS := (methodMatches l).countP fun p => p.1 == "private".data
    CBO := (referencedTypes l cname).length
    DIT := ditOf l
    LCOM := lcomOf l
    TCC := tccOf l cname
    ATFD := atfdOf l
    MAX_METHOD_LOC := maxMethodLoc l
    NOC := 1
    raw_code := raw }

/-- The number of lines of a text, as `raw.split("\n")` sees it. -/
def totalLineCount (raw : String) : Nat :=
  (splitLines raw.data).length

/-- C7: for every source text, the extracted MetricRecord has all count
metrics ≥ 0, `DIT ∈ \x7b0,1\x7d`, `NOC = 1`, and
`0 ≤ LOC ≤ total line count`. -/
theorem C7_record_invariants (filepath raw : String) :
    0 ≤ (extract_metrics filepath raw).LOC ∧
    0 ≤ (extract_metrics filepath raw).WMC ∧
    0 ≤ (extract_metrics filepath raw).METHODS ∧
    0 ≤ (extract_metrics filepath raw).FIELDS ∧
    0 ≤ (extract_metrics filepath raw).PRIVATE_METHODS ∧
    0 ≤ (extract_metrics filepath raw).CBO ∧
    0 ≤ (extract_metrics filepath raw).LCOM ∧
    0 ≤ (extract_metrics filepath raw).TCC ∧
    0 ≤ (extract_metrics filepath raw).ATFD ∧
    0 ≤ (extract_metrics filepath raw).MAX_METHOD_LOC ∧
    ((extract_metrics filepath raw).DIT = 0 ∨
      (extract_metrics filepath raw).DIT = 1) ∧
    (extract_metrics filepath raw).NOC = 1 ∧
    (extract_metrics filepath raw).LOC ≤ totalLineCount raw := by
  refine ⟨Nat.zero_le _, Nat.zero_le _, Nat.zero_le _, Nat.zero_le _,
    Nat.zero_le _, Nat.zero_le _, Nat.zero_le _, Nat.zero_le _,
    Nat.zero_le _, Nat.zero_le _, ?_, rfl, ?_⟩
  · show ditOf raw.data = 0 ∨ ditOf raw.data = 1
    unfold ditOf
    split
    · exact Or.inr rfl
    · exact Or.inl rfl
  · show locOf raw.data ≤ totalLineCount raw
    unfold locOf totalLineCount
    exact List.countP_le_length _

/-- C10: for every source text, `PRIVATE_METHODS ≤ METHODS` (the
private count is a filtered count over the same method-header match
list). -/
theorem C10_private_le_methods (filepath raw : String) :
    (extract_metrics filepath raw).PRIVATE_METHODS ≤
      (extract_metrics filepath raw).METHODS := by
  show (methodMatches raw.data).countP _ ≤ (methodMatches raw.data).length
  exact List.countP_le_length _

/-! ## Brace-depth characterisation of the body scan (for C3 and C6) -/

/-- The brace depth of the first `k` characters of `t`: +1 per opening
brace, −1 per closing brace. -/
def depthAt : List Char → Nat → Int
  | _, 0 => 0
  | [], _ + 1 => 0
  | c :: rest, k + 1 =>
    (if c = '\x7b' then 1 else if c = '\x7d' then -1 else 0) + depthAt rest k

lemma depthAt_zero (t : List Char) : depthAt t 0 = 0 := by
  cases t <;> rfl

lemma depthAt_nil (k : Nat) : depthAt [] k = 0 := by
  cases k <;> rfl

lemma depthAt_cons (c : Char) (rest : List Char) (k : Nat) :
    depthAt (c :: rest) (k + 1) =
      (if c = '\x7b' then 1 else if c = '\x7d' then -1 else 0) +
        depthAt rest k := rfl

/-- Splitting the depth of a prefix at position `s`. -/
lemma depthAt_add (l : List Char) :
    ∀ s k : Nat, depthAt l (s + k) = depthAt l s + depthAt (l.drop s) k := by
  induction l with
  | nil => intro s k; simp [depthAt_nil]
  | cons c rest ih =>
    intro s k
    cases s with
    | zero => simp [depthAt_zero]
    | succ s' =>
      rw [show s' + 1 + k = (s' + k) + 1 by omega, depthAt_cons, ih s' k,
        depthAt_cons, List.drop_succ_cons]
      ring

/-- If every nonempty in-range prefix of `t` keeps `d +` depth at least
1, the scan never breaks (the loop exhausts the input). -/
lemma scanBody_eq_none_of_pos (t : List Char) :
    ∀ (d : Int) (i : Nat),
      (∀ k, 1 ≤ k → k ≤ t.length → 1 ≤ d + depthAt t k) →
      scanBody t d i = none := by
  induction t with
  | nil => intro d i _; rfl
  | cons c rest ih =>
    intro d i h
    unfold scanBody
    by_cases h1 : c = '\x7b'
    · rw [if_pos h1]
      apply ih
      intro k hk1 hk2
      have h2 := h (k + 1) (by omega) (by simp only [List.length_cons]; omega)
      rw [depthAt_cons, if_pos h1] at h2
      omega
    · by_cases h2 : c = '\x7d'
      · rw [if_neg h1, if_pos h2]
        have hd1 := h 1 (by omega) (by simp only [List.length_cons]; omega)
        rw [depthAt_cons, if_neg h1, if_pos h2, depthAt_zero] at hd1
        rw [if_neg (show ¬(d - 1 = 0) by omega)]
        apply ih
        intro k hk1 hk2
        have h3 := h (k + 1) (by omega) (by simp only [List.length_cons]; omega)
        rw [depthAt_cons, if_neg h1, if_pos h2] at h3
        omega
      · rw [if_neg h1, if_neg h2]
        apply ih
        intro k hk1 hk2
        have h3 := h (k + 1) (by omega) (by simp only [List.length_cons]; omega)
        rw [depthAt_cons, if_neg h1, if_neg h2] at h3
        omega

/-- Conversely, if the scan exhausts the input (starting from positive
depth), every in-range prefix keeps the depth at least 1. -/
lemma pos_of_scanBody_eq_none (t : List Char) :
    ∀ (d : Int) (i : Nat), 1 ≤ d → scanBody t d i = none →
      ∀ k, k ≤ t.length → 1 ≤ d + depthAt t k := by
  induction t with
  | nil =>
    intro d i hd _ k hk
    simp only [List.length_nil, Nat.le_zero] at hk
    subst hk
    rw [depthAt_zero]; omega
  | cons c rest ih =>
    intro d i hd h k hk
    unfold scanBody at h
    cases k with
    | zero => rw [depthAt_zero]; omega
    | succ k' =>
      by_cases h1 : c = '\x7b'
      · rw [if_pos h1] at h
        have := ih (d + 1) (i + 1) (by omega) h k'
          (by simp only [List.length_cons] at hk; omega)
        rw [depthAt_cons, if_pos h1]
        omega
      · by_cases h2 : c = '\x7d'
        · rw [if_neg h1, if_pos h2] at h
          by_cases h3 : d - 1 = 0
          · rw [if_pos h3] at h; exact absurd h (by simp)
          · rw [if_neg h3] at h
            have := ih (d - 1) (i + 1) (by omega) h k'
              (by simp only [List.length_cons] at hk; omega)
            rw [depthAt_cons, if_neg h1, if_pos h2]
            omega
        · rw [if_neg h1, if_neg h2] at h
          have := ih d (i + 1) hd h k'
            (by simp only [List.length_cons] at hk; omega)
          rw [depthAt_cons, if_neg h1, if_neg h2]
          omega

/-- If the scan breaks at `j`, then `j` is in range, the character there
is a closing brace, the depth returns to exactly zero there, and every
earlier nonempty prefix kept the depth positive: `j` is the matching
closing brace found by depth counting. -/
lemma scanBody_eq_some_spec (t : List Char) :
    ∀ (d : Int) (i j : Nat), 1 ≤ d → scanBody t d i = some j →
      ∃ u, j = i + u ∧ u < t.length ∧ t.getD u ' ' = '\x7d' ∧
        d + depthAt t (u + 1) = 0 ∧ ∀ k, k ≤ u → 1 ≤ d + depthAt t k := by
  induction t with
  | nil => intro d i j _ h; exact absurd h (by simp [scanBody])
  | cons c rest ih =>
    intro d i j hd h
    unfold scanBody at h
    by_cases h1 : c = '\x7b'
    · rw [if_pos h1] at h
      obtain ⟨u', hj, hu', hch, hdep, hpos⟩ := ih (d + 1) (i + 1) j (by omega) h
      refine ⟨u' + 1, by omega, by simp only [List.length_cons]; omega, ?_, ?_, ?_⟩
      · simpa [List.getD_cons_succ] using hch
      · rw [depthAt_cons, if_pos h1]; omega
      · intro k hk
        cases k with
        | zero => rw [depthAt_zero]; omega
        | succ k' =>
          have := hpos k' (by omega)
          rw [depthAt_cons, if_pos h1]
          omega
    · by_cases h2 : c = '\x7d'
      · rw [if_neg h1, if_pos h2] at h
        by_cases h3 : d - 1 = 0
        · rw [if_pos h3] at h
          obtain rfl : i = j := by simpa using h
          refine ⟨0, by omega, by simp only [List.length_cons]; omega, ?_, ?_, ?_⟩
          · simp [List.getD_cons_zero, h2]
          · rw [show (0 : Nat) + 1 = 1 by omega, depthAt_cons, if_neg h1,
              if_pos h2, depthAt_zero]
            omega
          · intro k hk
            interval_cases k
            rw [depthAt_zero]; omega
        · rw [if_neg h3] at h
          obtain ⟨u', hj, hu', hch, hdep, hpos⟩ :=
            ih (d - 1) (i + 1) j (by omega) h
          refine ⟨u' + 1, by omega, by simp only [List.length_cons]; omega,
            ?_, ?_, ?_⟩
          · simpa [List.getD_cons_succ] using hch
          · rw [depthAt_cons, if_neg h1, if_pos h2]; omega
          · intro k hk
            cases k with
            | zero => rw [depthAt_zero]; omega
            | succ k' =>
              have := hpos k' (by omega)
              rw [depthAt_cons, if_neg h1, if_pos h2]
              omega
      · rw [if_neg h1, if_neg h2] at h
        obtain ⟨u', hj, hu', hch, hdep, hpos⟩ := ih d (i + 1) j hd h
        refine ⟨u' + 1, by omega, by simp only [List.length_cons]; omega,
          ?_, ?_, ?_⟩
        · simpa [List.getD_cons_succ] using hch
        · rw [depthAt_cons, if_neg h1, if_neg h2]; omega
        · intro k hk
          cases k with
          | zero => rw [depthAt_zero]; omega
          | succ k' =>
            have := hpos k' (by omega)
            rw [depthAt_cons, if_neg h1, if_neg h2]
            omega

/-- Every value collected by the findall driver comes from a successful
application of the matcher at some position. -/
lemma mem_findallAux {α : Type} {m : Nat → Option (Nat × α)} {n : Nat} :
    ∀ {fuel i : Nat} {a : α}, a ∈ findallAux m n fuel i →
      ∃ p j, m p = some (j, a) := by
  intro fuel
  induction fuel with
  | zero => intro i a h; simp [findallAux] at h
  | succ f ih =>
    intro i a h
    unfold findallAux at h
    split at h
    · rcases hmi : m i with _ | ⟨j, b⟩
      · rw [hmi] at h
        exact ih h
      · rw [hmi] at h
        rcases List.mem_cons.mp h with rfl | h'
        · exact ⟨i, j, hmi⟩
        · exact ih h'
    · simp at h

lemma litEnd_drop {lit l : List Char} {i j : Nat}
    (h : litEnd lit l i = some j) : lit.isPrefixOf (l.drop i) = true := by
  unfold litEnd at h
  split at h
  · next hc => exact hc
  · exact absurd h (by simp)

lemma single_prefix_drop {c : Char} {l : List Char} {q : Nat}
    (h : [c].isPrefixOf (l.drop q) = true) : ∃ t, l.drop q = c :: t := by
  cases hd : l.drop q with
  | nil => rw [hd] at h; simp [List.isPrefixOf] at h
  | cons x xs =>
    rw [hd] at h
    simp only [List.isPrefixOf, Bool.and_true, beq_iff_eq] at h
    subst h
    exact ⟨xs, rfl⟩

/-- A successful method-body match returns the index of an opening
brace (the pattern ends with a literal `\x7b`). -/
lemma matchMethodBodyAt_brace {l : List Char} {i e s : Nat}
    (h : matchMethodBodyAt l i = some (e, s)) :
    ∃ t, l.drop s = '\x7b' :: t := by
  unfold matchMethodBodyAt at h
  simp only [Option.bind_eq_some, Option.pure_def, Option.some.injEq,
    Prod.mk.injEq] at h
  obtain ⟨av, -, b, -, c, -, d, -, e', -, g, -, p, -, r, hr, -, hs⟩ := h
  subst hs
  exact single_prefix_drop (litEnd_drop hr)

/-- Every collected method-body start is the position of an opening
brace. -/
lemma methodBraceStarts_brace {l : List Char} {s : Nat}
    (hs : s ∈ methodBraceStarts l) : ∃ t, l.drop s = '\x7b' :: t := by
  unfold methodBraceStarts findall at hs
  obtain ⟨p, j, hm⟩ := mem_findallAux hs
  exact matchMethodBodyAt_brace hm

/-- The source text of the C3 scenario: a matched method header whose
opening brace is never rebalanced. -/
def unbalRaw : String := "public void f() \x7b\nx;"

/-- C3 counterexample: on a matched method header whose opening brace
is never rebalanced, the unterminated body is measured as 1 line (the
line holding the opening brace), not 0 — here it is the only method, so
`MAX_METHOD_LOC = 1 ≠ 0`. -/
theorem C3_counterexample :
    methodLocs unbalRaw.data = [1] ∧
    (extract_metrics "Unbal.java" unbalRaw).MAX_METHOD_LOC = 1 := by
  decide

/-- C3 (amended): for every source text in which a matched method
header's opening brace is never rebalanced (the brace depth stays
positive on every nonempty prefix of the remaining input), the forward
scan stops at end of input without breaking (and the total extraction
function returns normally), Python's `end` stays at `start`, and the
unterminated body is the single opening-brace character, measured as
exactly 1 line — not 0 — so it contributes 1 to `MAX_METHOD_LOC`. -/
theorem C3_amended_unterminated (raw : String) (s : Nat)
    (hs : s ∈ methodBraceStarts raw.data)
    (hpos : ∀ k ≤ (raw.data.drop s).length, 1 ≤ k →
      1 ≤ depthAt (raw.data.drop s) k) :
    scanBody (raw.data.drop s) 0 s = none ∧
    scanEnd raw.data s = s ∧
    bodyOf raw.data s = ['\x7b'] ∧
    bodyLoc (bodyOf raw.data s) = 1 := by
  obtain ⟨t, hd⟩ := methodBraceStarts_brace hs
  have hscan : scanBody (raw.data.drop s) 0 s = none := by
    rw [hd]
    unfold scanBody
    rw [if_pos rfl]
    apply scanBody_eq_none_of_pos
    intro k hk1 hk2
    have h2 := hpos (k + 1)
      (by rw [hd]; simp only [List.length_cons]; omega) (by omega)
    rw [hd, depthAt_cons, if_pos rfl] at h2
    omega
  have hend : scanEnd raw.data s = s := by
    unfold scanEnd
    rw [hscan]
    rfl
  have hbody : bodyOf raw.data s = ['\x7b'] := by
    unfold bodyOf slice
    rw [hend, show s + 1 - s = 1 by omega, hd]
    rfl
  exact ⟨hscan, hend, hbody, by rw [hbody]; decide⟩

/-- Witness for the amended C3 theorem: in `unbalRaw` the brace at
index 16 opens the matched method body and is never closed. -/
theorem C3_amended_unterminated_witness :
    scanBody (unbalRaw.data.drop 16) 0 16 = none ∧
    scanEnd unbalRaw.data 16 = 16 ∧
    bodyOf unbalRaw.data 16 = ['\x7b'] ∧
    bodyLoc (bodyOf unbalRaw.data 16) = 1 :=
  C3_amended_unterminated unbalRaw 16 (by decide) (by decide)

/-- Whole-text brace balance: every prefix depth is ≥ 0 and the total
depth is 0. -/
def BalancedText (l : List Char) : Prop :=
  (∀ k ≤ l.length, 0 ≤ depthAt l k) ∧ depthAt l l.length = 0

/-- The C6 empty-body scenario. -/
def emptyBodyRaw : String := "  public void f() \x7b\x7d"

/-- C6: in a source text with balanced braces, each matched method
body is the substring from the header's opening brace to the matching
closing brace found by depth counting: the scan breaks at some `j`
holding a closing brace at which the slice's depth first returns to
zero (every shorter nonempty prefix has positive depth), and the
extracted body is exactly the slice `raw[start:j+1]`; in particular for
an empty method body the extracted body is the two-character span
`\x7b\x7d`. -/
theorem C6_brace_matching :
    (∀ (raw : String) (s : Nat), s ∈ methodBraceStarts raw.data →
      BalancedText raw.data →
      ∃ j, scanBody (raw.data.drop s) 0 s = some j ∧
        s < j ∧ j < raw.data.length ∧
        (raw.data.drop s).getD (j - s) ' ' = '\x7d' ∧
        depthAt (raw.data.drop s) (j - s + 1) = 0 ∧
        (∀ k, 1 ≤ k → k ≤ j - s → 1 ≤ depthAt (raw.data.drop s) k) ∧
        bodyOf raw.data s = slice raw.data s (j + 1) ∧
        (bodyOf raw.data s).length = j - s + 1) ∧
    methodBodies emptyBodyRaw.data = [['\x7b', '\x7d']] := by
  constructor
  · intro raw s hs hbal
    obtain ⟨t, hd⟩ := methodBraceStarts_brace hs
    have hlen : raw.data.length - s = t.length + 1 := by
      have h2 := congrArg List.length hd
      rw [List.length_drop] at h2
      simpa using h2
    have hslen : s < raw.data.length := by omega
    rcases hscan : scanBody (raw.data.drop s) 0 s with _ | j
    · exfalso
      have hscan2 := hscan
      rw [hd] at hscan2
      unfold scanBody at hscan2
      rw [if_pos rfl] at hscan2
      have hpos := pos_of_scanBody_eq_none t 1 (s + 1) (by omega) hscan2
      have hsplit := depthAt_add raw.data s (raw.data.length - s)
      rw [show s + (raw.data.length - s) = raw.data.length by omega] at hsplit
      rw [hbal.2, hd, hlen, depthAt_cons, if_pos rfl] at hsplit
      have h0 : 0 ≤ depthAt raw.data s := hbal.1 s (by omega)
      have ht := hpos t.length (le_refl _)
      omega
    · have hscan2 := hscan
      rw [hd] at hscan2
      unfold scanBody at hscan2
      rw [if_pos rfl] at hscan2
      obtain ⟨u, hj, hu, hch, hdep, hpos⟩ :=
        scanBody_eq_some_spec t 1 (s + 1) j (by omega) hscan2
      have hbodyEq : bodyOf raw.data s = slice raw.data s (j + 1) := by
        unfold bodyOf scanEnd
        rw [hscan]
        rfl
      refine ⟨j, rfl, by omega, by omega, ?_, ?_, ?_, hbodyEq, ?_⟩
      · rw [show j - s = u + 1 by omega, hd, List.getD_cons_succ]
        exact hch
      · rw [show j - s + 1 = (u + 1) + 1 by omega, hd, depthAt_cons,
          if_pos rfl]
        omega
      · intro k hk1 hk2
        rw [hd]
        cases k with
        | zero => omega
        | succ k' =>
          rw [depthAt_cons, if_pos rfl]
          have := hpos k' (by omega)
          omega
      · rw [hbodyEq]
        unfold slice
        rw [List.length_take, List.length_drop]
        omega
  · decide

/-- Witness for C6 at the concrete empty-body source `emptyBodyRaw`:
the matched opening brace at index 18 pairs with the closing brace at
index 19 and the body is the two-character span. -/
theorem C6_brace_matching_witness :
    ∃ j, scanBody (emptyBodyRaw.data.drop 18) 0 18 = some j ∧
      18 < j ∧ j < emptyBodyRaw.data.length ∧
      (emptyBodyRaw.data.drop 18).getD (j - 18) ' ' = '\x7d' ∧
      depthAt (emptyBodyRaw.data.drop 18) (j - 18 + 1) = 0 ∧
      (∀ k, 1 ≤ k → k ≤ j - 18 → 1 ≤ depthAt (emptyBodyRaw.data.drop 18) k) ∧
      bodyOf emptyBodyRaw.data 18 = slice emptyBodyRaw.data 18 (j + 1) ∧
      (bodyOf emptyBodyRaw.data 18).length = j - 18 + 1 :=
  C6_brace_matching.1 emptyBodyRaw 18 (by decide) ⟨by decide, by decide⟩

/-! ## Project traversal (`run_on_project`, `run_sonar_on_project`) -/

/-- A per-project record: `run_on_project` adds a `project` key to each
metrics dict (`m["project"] = project_name`). -/
structure ProjectRecord where
  m : MetricRecord
  project : String
  deriving Repr, DecidableEq

/-- Python's `str.endswith` (suffix test over the characters). -/
def pyEndsWith (s suffix : String) : Bool :=
  suffix.data.isSuffixOf s.data

/-- `ck_extractor.run_on_project`, modelled over the discovered files
as an enumeration-ordered list of (path, decoded text) pairs (the
`os.walk` order): every file whose name ends in `.java` is extracted,
tagged with the project name, and appended in enumeration order.  The
CSV write and the per-file exception guard are I/O and outside the text
model (extraction is total here), and `fname.endswith(".java")` is
checked on the joined path, which ends with the file name. -/
def run_on_project (files : List (String × String))
    (project_name : String) : List ProjectRecord :=
  (files.filter fun f => pyEndsWith f.1 ".java").map fun f =>
    { m := extract_metrics f.1 f.2, project := project_name }

/-- One SonarQube-style issue, mirroring the dict appended by
`run_sonar_on_project`. -/
structure Issue where
  key : String
  rule : String
  type : String
  severity : String
  text : String
  smell_label : String
  component : String
  class_name : String
  file_path : String
  deriving Repr, DecidableEq

/-- `sonar_detector.run_sonar_on_project`: for each discovered `.java`
file (enumeration order), extract metrics, classify, and append one
issue per smell.  The walk yields `fpath = os.path.join(project_path,
rel_path)`, so the model takes project-relative paths and rebuilds
`fpath`; `os.path.relpath(fpath, project_path)` is then the relative
path itself. -/
def run_sonar_on_project (relFiles : List (String × String))
    (project_path project_name : String) : List Issue :=
  (relFiles.filter fun f => pyEndsWith f.1 ".java").flatMap fun f =>
    let fpath := project_path ++ "/" ++ f.1
    let metrics := extract_metrics fpath f.2
    (detect_smells metrics).map fun s =>
      { key := project_name ++ ":" ++ f.1 ++ ":" ++ s.rule
        rule := s.rule
        type := s.type
        severity := s.severity
        text := s.text
        smell_label := s.smell_label
        component := project_name ++ ":" ++ f.1
        class_name := metrics.class_name
        file_path := fpath }

/-- Lexicographic (code-point) comparison of character lists — the
order Python's `<` uses on strings. -/
def charListLt : List Char → List Char → Bool
  | [], [] => false
  | [], _ :: _ => true
  | _ :: _, [] => false
  | a :: as, b :: bs =>
    decide (a < b) || (decide (a = b) && charListLt as bs)

/-- The claim-side ordering: a list of path strings sorted lexically
(non-strictly). -/
def lexSorted (xs : List String) : Prop :=
  List.Pairwise (fun a b => charListLt a.data b.data = true ∨ a = b) xs

/-- A filesystem enumeration that yields `b.java` before `a.java`. -/
def c4Files : List (String × String) := [("b.java", ""), ("a.java", "")]

/-- C4 counterexample: `run_on_project` appends records in enumeration
order and never re-sorts, so an enumeration that yields `b.java` before
`a.java` produces an aggregated collection that is NOT sorted by
`file_path`. -/
theorem C4_counterexample :
    (run_on_project c4Files "p").map (fun r => r.m.file_path) =
      ["b.java", "a.java"] ∧
    ¬ lexSorted ((run_on_project c4Files "p").map fun r => r.m.file_path) := by
  have hmap : (run_on_project c4Files "p").map (fun r => r.m.file_path) =
      ["b.java", "a.java"] := by decide
  refine ⟨hmap, ?_⟩
  intro h
  rw [hmap] at h
  rcases (List.pairwise_cons.mp h).1 "a.java" (by simp) with hlt | heq
  · exact absurd hlt (by decide)
  · exact absurd heq (by decide)

/-- C4 (amended): the aggregated outputs preserve the filesystem
enumeration order (no sorting is applied): the records' `file_path`
sequence is exactly the `.java` files in enumeration order, and the
issues' `file_path` sequence is those files in enumeration order with
one entry per detected smell. -/
theorem C4_amended_enumeration_order (files relFiles : List (String × String))
    (pname ppath : String) :
    (run_on_project files pname).map (fun r => r.m.file_path) =
      (files.filter fun f => pyEndsWith f.1 ".java").map Prod.fst ∧
    (run_sonar_on_project relFiles ppath pname).map Issue.file_path =
      ((relFiles.filter fun f => pyEndsWith f.1 ".java").flatMap fun f =>
        (detect_smells (extract_metrics (ppath ++ "/" ++ f.1) f.2)).map
          fun _ => ppath ++ "/" ++ f.1) := by
  constructor
  · rw [run_on_project, List.map_map]
    rfl
  · rw [run_sonar_on_project, List.map_flatMap]
    simp only [List.map_map]
    rfl

/-! ## Serialized fields (C8) -/

/-- A serialized value (string or integer) — just enough structure to
model the dict fields. -/
inductive JValue where
  | str : String → JValue
  | num : Nat → JValue
  deriving Repr, DecidableEq

/-- The metrics dict returned by `extract_metrics`, in insertion order
(source lines 141-158). -/
def recordEntries (m : MetricRecord) : List (String × JValue) :=
  [("file_path", .str m.file_path), ("class_name", .str m.class_name),
   ("package", .str m.package), ("LOC", .num m.LOC), ("WMC", .num m.WMC),
   ("METHODS", .num m.METHODS), ("FIELDS", .num m.FIELDS),
   ("PRIVATE_METHODS", .num m.PRIVATE_METHODS), ("CBO", .num m.CBO),
   ("DIT", .num m.DIT), ("LCOM", .num m.LCOM), ("TCC", .num m.TCC),
   ("ATFD", .num m.ATFD), ("MAX_METHOD_LOC", .num m.MAX_METHOD_LOC),
   ("NOC", .num m.NOC), ("raw_code", .str m.raw_code)]

/-- The dict after `run_on_project` adds the `project` key; this is
what the combined JSON (`all_ck_metrics.json`) serializes. -/
def projectEntries (r : ProjectRecord) : List (String × JValue) :=
  recordEntries r.m ++ [("project", JValue.str r.project)]

/-- The CSV row: all keys except `raw_code`
(`keys = [k for k in results[0].keys() if k != "raw_code"]`). -/
def csvEntries (r : ProjectRecord) : List (String × JValue) :=
  (projectEntries r).filter fun e => e.1 != "raw_code"

/-- C8 counterexample: no serialized variant has a field named
`raw_source` — the raw text field is named `raw_code` — and both the
JSON and CSV variants additionally carry a `project` field beyond the
fifteen claimed ones. -/
theorem C8_counterexample :
    "raw_source" ∉
      (projectEntries ⟨extract_metrics "x.java" "", "p"⟩).map Prod.fst ∧
    "raw_code" ∈
      (projectEntries ⟨extract_metrics "x.java" "", "p"⟩).map Prod.fst ∧
    "project" ∈
      (csvEntries ⟨extract_metrics "x.java" "", "p"⟩).map Prod.fst := by
  refine ⟨?_, ?_, ?_⟩ <;> decide

/-- C8 (amended): every serialized record has exactly the fields
`file_path, class_name, package, LOC, WMC, METHODS, FIELDS,
PRIVATE_METHODS, CBO, DIT, LCOM, TCC, ATFD, MAX_METHOD_LOC, NOC` plus
`raw_code` (named so, not `raw_source`) and `project` in the JSON
variant, while the tabular/CSV variant omits only `raw_code` (keeping
`project`); no other fields appear. -/
theorem C8_amended_serialized_fields (r : ProjectRecord) :
    (projectEntries r).map Prod.fst =
      ["file_path", "class_name", "package", "LOC", "WMC", "METHODS",
       "FIELDS", "PRIVATE_METHODS", "CBO", "DIT", "LCOM", "TCC", "ATFD",
       "MAX_METHOD_LOC", "NOC", "raw_code", "project"] ∧
    (csvEntries r).map Prod.fst =
      ["file_path", "class_name", "package", "LOC", "WMC", "METHODS",
       "FIELDS", "PRIVATE_METHODS", "CBO", "DIT", "LCOM", "TCC", "ATFD",
       "MAX_METHOD_LOC", "NOC", "project"] := by
  exact ⟨rfl, rfl⟩

end CodeSmell
